import Mathlib

/-!
Shallow embedding of the ledger / stock-allocation core of the marketplace
backend (src/db.js), together with theorems settling the frozen claims.

Modelling conventions:
* Money is embedded as exact rationals (`ℚ`).  The source stores money as JS
  floating-point numbers and rounds explicitly with `toFixed(2)` at each
  computation boundary; that rounding is embedded as `round2` below
  (round half toward +infinity on the second decimal, which is what
  `Number.prototype.toFixed` does on the exact value).
* The per-user transaction history (a JSON array, newest first) is a
  `List Tx`; the stock table rows for one product are a `List StockRow`.
* External inputs that the endpoints obtain from the clock, from
  `Math.random`, or from the JS `Date` library (timestamps, formatted date
  strings, generated order codes, epoch milliseconds of a parsed
  `dd/mm/yyyy` date, which is timezone dependent) are passed in as explicit
  parameters of the embedded operations.
* A crucial JavaScript semantic point for the purchase endpoint:
  `client.execute(...)` starts executing the SQL statement the moment it is
  called; pushing the resulting promise into an array (`updatesToExecute`)
  does not defer it, and an early `return` before `Promise.all` does not
  cancel it.  The embedding therefore applies every stock write that the
  allocation loop issued, also on the insufficient-stock early return.
-/

namespace Melu

/-- JS `toFixed(2)` of the source, on exact rationals: round to 2
decimals, ties toward +infinity (ECMA-262 picks the larger candidate on a
tie). -/
def round2 (q : ℚ) : ℚ := (Int.floor (q * 100 + 1/2) : ℚ) / 100

/-- A ledger-transaction identity: either a numeric `Date.now()` timestamp
or a generated order-code string (`#ORD-…`).  Both forms occur in the data
(spec §3). -/
inductive TxId where
  | num (n : Int)
  | str (s : String)
  deriving Repr, DecidableEq

/-- JS `String(id)`: the decimal representation for numbers, identity for
strings. -/
def TxId.toStr : TxId → String
  | .num n => toString n
  | .str s => s

/-- JS strict equality `===` on the heterogeneous id values: a number and a
string are never strictly equal. -/
def strictIdEq : TxId → TxId → Bool
  | .num a, .num b => a == b
  | .str a, .str b => a == b
  | _, _ => false

/-- One entry of a purchase transaction's `details.fullCredentials`: the
stock row it came from and the quantity recorded in the copied payload. -/
structure Credential where
  stockId : Option Nat := none
  quantity : Nat := 1
  deriving Repr, DecidableEq

/-- The `details` payload of a ledger transaction (only the fields the
core logic reads back). -/
structure TxDetails where
  productName : String := ""
  provider : Option String := none
  duration : Option String := none
  purchaseDate : Option String := none
  delivery : Option String := none
  fullCredentials : List Credential := []
  supportMessage : Option String := none
  supportDate : Option String := none
  refundDate : Option String := none
  refundAmount : Option ℚ := none
  deriving Repr, DecidableEq

/-- A ledger entry (`transactions_history` element).  `txType` embeds the
JS field `type` ('credit' | 'debit'). -/
structure Tx where
  id : TxId
  orderCode : Option String := none
  date : String := ""
  description : String := ""
  amount : ℚ := 0
  txType : String := ""
  status : String := ""
  isCommission : Bool := false
  details : TxDetails := {}
  deriving Repr, DecidableEq

/-- The JSON payload stored in a `product_stock.data` column (only the
fields the allocator reads: the publish status subfield, the embedded
quantity, and the stamped per-unit sold price). -/
structure StockData where
  status : String := ""
  quantity : Nat := 1
  priceSoldPerUnit : Option ℚ := none
  deriving Repr, DecidableEq

/-- One row of the `product_stock` table for a product. -/
structure StockRow where
  id : Nat
  isSold : Bool := false
  soldTo : Option Nat := none
  data : StockData := {}
  deriving Repr, DecidableEq

/-- A user's mutable state touched by the core operations: balance and
ledger (plus the username copied into descriptions). -/
structure UserSt where
  balance : ℚ := 0
  history : List Tx := []
  username : String := ""
  deriving Repr, DecidableEq

/-! ## Stock allocator (POST /user/purchase, db.js lines 2560-2590) -/

/-- JS `parseInt(data.quantity) || 1` of the allocation loop: a zero (or,
in the source, missing/unparsable) quantity counts as one unit. -/
def availableInRow (d : StockData) : Nat := if d.quantity = 0 then 1 else d.quantity

/-- Units a row contributes to the sellable pool as the loop sees it:
nothing when its embedded status is 'Sin publicar', else `availableInRow`. -/
def rowCap (r : StockRow) : Nat :=
  if r.data.status == "Sin publicar" then 0 else availableInRow r.data

/-- Total capacity of a list of rows as the allocation loop walks it. -/
def loopCap (rows : List StockRow) : Nat := (rows.map rowCap).sum

/-- Total available capacity of the pool: unsold rows only (the SQL
`WHERE is_sold = 0`), then published only (the loop's status check). -/
def capacity (rows : List StockRow) : Nat :=
  loopCap (rows.filter (fun r => !r.isSold))

/-- Sum of the embedded quantities of the unsold, published stock rows:
the value the product's cached `stock` counter is supposed to equal
(spec §3, claim C2). -/
def poolSum (rows : List StockRow) : Nat :=
  ((rows.filter (fun r => !r.isSold && r.data.status != "Sin publicar")).map
    (fun r => r.data.quantity)).sum

/-- A SQL write issued by the allocation loop.  `updateData` is the
split-branch decrement of the source row, `markSold` the whole-row sale,
`insertSold` a synthesized one-unit sold row (its fresh id recorded). -/
inductive StockWrite where
  | updateData (rowId : Nat) (d : StockData)
  | markSold (rowId : Nat) (buyerId : Nat) (d : StockData)
  | insertSold (rowId : Nat) (buyerId : Nat) (d : StockData)
  deriving Repr, DecidableEq

/-- Result of the allocation loop: units collected, the SQL writes it
issued (in issue order), the next fresh row id, and the credentials list
returned to the buyer. -/
structure AllocOut where
  collected : Nat
  writes : List StockWrite
  nextId : Nat
  creds : List Credential
  deriving Repr, DecidableEq

/-- The allocation loop of db.js 2564-2586, over the unsold rows of the
product.  Walks the rows in selection order; skips 'Sin publicar' rows;
splits a row whose available quantity exceeds the remaining need
(decrement in place, insert `needed` one-unit sold rows); otherwise marks
the whole row sold. -/
def allocLoop (buyerId : Nat) (price : ℚ) (qty : Nat) :
    List StockRow → Nat → Nat → AllocOut
  | [], collected, nextId => ⟨collected, [], nextId, []⟩
  | r :: rest, collected, nextId =>
    if qty ≤ collected then ⟨collected, [], nextId, []⟩
    else if r.data.status == "Sin publicar" then
      allocLoop buyerId price qty rest collected nextId
    else
      let avail := availableInRow r.data
      let needed := qty - collected
      if needed < avail then
        let d := { r.data with quantity := avail - needed }
        let soldCopy := { r.data with quantity := 1, priceSoldPerUnit := some price }
        let ins := (List.range needed).map
          (fun k => StockWrite.insertSold (nextId + k) buyerId soldCopy)
        let newCreds : List Credential := (List.range needed).map
          (fun k => { stockId := some (nextId + k), quantity := 1 })
        let rec' := allocLoop buyerId price qty rest (collected + needed) (nextId + needed)
        ⟨rec'.collected, StockWrite.updateData r.id d :: (ins ++ rec'.writes),
          rec'.nextId, newCreds ++ rec'.creds⟩
      else
        let soldData := { r.data with priceSoldPerUnit := some price }
        let rec' := allocLoop buyerId price qty rest (collected + avail) nextId
        ⟨rec'.collected, StockWrite.markSold r.id buyerId soldData :: rec'.writes,
          rec'.nextId, { stockId := some r.id, quantity := r.data.quantity } :: rec'.creds⟩

/-- Effect of one issued SQL write on the product's stock rows. -/
def applyWrite (rows : List StockRow) : StockWrite → List StockRow
  | .updateData rid d =>
      rows.map (fun r => if r.id == rid then { r with data := d } else r)
  | .markSold rid buyerId d =>
      rows.map (fun r =>
        if r.id == rid then { r with isSold := true, soldTo := some buyerId, data := d } else r)
  | .insertSold rid buyerId d =>
      rows ++ [{ id := rid, isSold := true, soldTo := some buyerId, data := d }]

/-- Apply the issued writes in order. -/
def applyWrites (rows : List StockRow) (ws : List StockWrite) : List StockRow :=
  ws.foldl applyWrite rows

/-- Contribution of one row to the published-unsold pool sum. -/
def rowPool (r : StockRow) : Nat :=
  if !r.isSold && r.data.status != "Sin publicar" then r.data.quantity else 0

/-- The stock row a write updates in place (inserts touch no existing
row). -/
def writeTarget : StockWrite → Option Nat
  | .updateData rid _ => some rid
  | .markSold rid _ _ => some rid
  | .insertSold _ _ _ => none

/-- The allocation pass of the purchase endpoint: loop over the rows the
`SELECT … WHERE is_sold = 0` returned, starting with nothing collected. -/
def allocRun (buyerId : Nat) (price : ℚ) (qty : Nat) (rows : List StockRow)
    (nextRowId : Nat) : AllocOut :=
  allocLoop buyerId price qty (rows.filter (fun r => !r.isSold)) 0 nextRowId

/-! ## Purchase endpoint (POST /user/purchase, db.js 2529-2676) -/

/-- The product columns the purchase endpoint reads back into the buyer's
transaction. -/
structure Product where
  name : String := ""
  duration : String := ""
  delivery : String := ""
  providerName : String := ""
  deriving Repr, DecidableEq

/-- The buyer's debit transaction built at db.js 2601-2629 (fields the
core later reads back; free-form display fields are carried verbatim). -/
def mkBuyerTx (ordCode dateStr : String) (prod : Product) (amount : ℚ)
    (creds : List Credential) : Tx :=
  { id := .str ordCode
    date := dateStr
    amount := amount
    txType := "debit"
    status := "Completada"
    details :=
      { productName := prod.name
        provider := some prod.providerName
        duration := some prod.duration
        purchaseDate := some dateStr
        delivery := some (if prod.delivery == "A pedido" then "A pedido" else "Autoentrega")
        fullCredentials := creds } }

/-- The provider's credit transaction built at db.js 2639-2651 (note the
source tags it `isCommission: true`). -/
def mkProviderTx (provTxId : Int) (dateStr : String) (amount : ℚ) : Tx :=
  { id := .num provTxId
    date := dateStr
    amount := amount
    txType := "credit"
    status := "Completada"
    isCommission := true }

/-- Outcome of the purchase endpoint.  `insufficientStock` carries the
stock rows *after* the writes the loop already issued (see the module
docstring: the early 409 return does not cancel the started
`client.execute` promises) together with the next fresh row id. -/
inductive PurchaseOut where
  | insufficientBalance
  | insufficientStock (rows : List StockRow) (nextRowId : Nat)
  | ok (rows : List StockRow) (nextRowId : Nat) (counter : Int)
       (buyer : UserSt) (provider : UserSt)
  deriving Repr, DecidableEq

/-- POST /user/purchase, db.js 2538-2676, for a buyer and a provider that
are distinct users (the source reads the provider row only after the
buyer's update has committed).  `counter` is the product's cached `stock`
column; on success it is decremented in place by the purchased quantity
(line 2590).  Input validation that cannot mutate state (missing fields,
unknown user/product) is elided. -/
def purchase (ordCode : String) (provTxId : Int) (dateStr : String) (prod : Product)
    (amount : ℚ) (qty : Nat) (pricePerUnit : ℚ) (buyerId : Nat)
    (buyer provider : UserSt) (rows : List StockRow) (counter : Int)
    (nextRowId : Nat) : PurchaseOut :=
  if buyer.balance < amount then .insufficientBalance
  else
    let a := allocRun buyerId pricePerUnit qty rows nextRowId
    let rowsAfter := applyWrites rows a.writes
    if a.collected < qty then .insufficientStock rowsAfter a.nextId
    else
      let buyerTx := mkBuyerTx ordCode dateStr prod amount a.creds
      let provTx := mkProviderTx provTxId dateStr amount
      .ok rowsAfter a.nextId (counter - qty)
        { buyer with balance := buyer.balance - amount, history := buyerTx :: buyer.history }
        { provider with
            balance := provider.balance + amount, history := provTx :: provider.history }

/-! ## Support / refund workflow (db.js 1241-1342, 3383-3546, 3590-3674) -/

/-- Digits parsed with JS `parseInt(s, 16)`: the source passes radix 16 to
parse the decimal digit run of the duration label (db.js 3440), so each
decimal digit is taken as a base-16 digit. -/
def parseDigitsHex (ds : List Char) : Nat :=
  ds.foldl (fun a c => a * 16 + (c.toNat - 48)) 0

/-- One-or-more whitespace then the literal `Días`: the tail required
after the digit group by the regex `/(\d+)\s+Días/`. -/
def durTail (l : List Char) : Bool :=
  let ws := l.takeWhile (fun c => c == ' ')
  let after := l.dropWhile (fun c => c == ' ')
  !ws.isEmpty && "Días".data.isPrefixOf after

/-- Left-to-right scan for the first match of `/(\d+)\s+Días/`, returning
the captured digit run.  (A maximal digit run followed by another digit
can never be shortened into a match, so scanning suffix starts is
equivalent to the regex engine's search.) -/
def matchDurDigits : List Char → Option (List Char)
  | [] => none
  | c :: rest =>
    if c.isDigit then
      let run := (c :: rest).takeWhile Char.isDigit
      let after := (c :: rest).dropWhile Char.isDigit
      if durTail after then some run else matchDurDigits rest
    else matchDurDigits rest

/-- db.js 3439-3440: extract the duration digits and parse them with
radix 16; when the label is absent or does not match, fall back to 30. -/
def refundTotalDays (duration : Option String) : Nat :=
  match duration with
  | none => 30
  | some s =>
    match matchDurDigits s.data with
    | some ds => parseDigitsHex ds
    | none => 30

/-- External inputs of POST /supplier/handle-support: the epoch
milliseconds of the parsed `dd/mm/yyyy` purchase date (`new
Date(year, month-1, day)`, timezone dependent, hence a parameter), the
current time, the fresh `Date.now()` transaction id, today's formatted
date string, and whether the product-by-name lookup of the stock
restoration found a row. -/
structure HSCtx where
  purchasedMs : Int
  nowMs : Int
  freshId : Int
  dateStr : String
  productFound : Bool
  deriving Repr, DecidableEq

inductive HSErr where
  | notFound
  | nothingToRefund
  deriving Repr, DecidableEq

/-- The state handle-support touches: the found user's balance and
ledger, the product's stock rows and cached `stock` counter. -/
structure HSState where
  balance : ℚ := 0
  history : List Tx := []
  rows : List StockRow := []
  counter : Int := 0
  deriving Repr, DecidableEq

/-- POST /supplier/handle-support (db.js 3383-3546).  Finds the
transaction with the given id (strict `===`) in status 'Soporte'.  For
`action = 'refund'` it computes the day-prorated refund (duration label
parsed via `refundTotalDays`, elapsed days floored), fails with
`nothingToRefund` when the rounded refund is ≤ 0, credits the buyer
(balance rounded to 2 decimals), marks the transaction 'Devuelto',
prepends a refund credit entry, restores the linked stock rows to unsold
and increments the cached counter by the *number of credential records*.
Any other action just resolves the ticket back to 'Completada'. -/
def handleSupport (ctx : HSCtx) (action : String) (purchaseId : TxId)
    (st : HSState) : Except HSErr HSState :=
  match st.history.find? (fun tx => strictIdEq tx.id purchaseId && tx.status == "Soporte") with
  | none => .error .notFound
  | some targetTx =>
    let resolve := fun (newStatus : String) (tx : Tx) =>
      if strictIdEq tx.id purchaseId then
        { tx with status := newStatus,
                  details := { tx.details with supportMessage := none, supportDate := none } }
      else tx
    if action == "refund" then
      let totalDays := refundTotalDays targetTx.details.duration
      let safeTotalDays := max 1 totalDays
      let oneDay : Int := 1000 * 60 * 60 * 24
      let diffTime := ctx.nowMs - ctx.purchasedMs
      let daysUsed := Int.fdiv diffTime oneDay
      let daysRemaining : Int := max 0 ((safeTotalDays : Int) - daysUsed)
      let costPerDay := targetTx.amount / (safeTotalDays : ℚ)
      let amountToRefund := round2 ((daysRemaining : ℚ) * costPerDay)
      if amountToRefund ≤ 0 then .error .nothingToRefund
      else
        let newBalance := round2 (st.balance + amountToRefund)
        let refundTx : Tx :=
          { id := .num ctx.freshId, date := ctx.dateStr, amount := amountToRefund,
            txType := "credit", status := "Completada" }
        let creds := targetTx.details.fullCredentials
        let doRestore := !creds.isEmpty && targetTx.details.delivery != some "A pedido"
        let stockIds := creds.filterMap (fun c => c.stockId)
        let rows' :=
          if doRestore && !stockIds.isEmpty then
            st.rows.map (fun r =>
              if stockIds.contains r.id then { r with isSold := false, soldTo := none } else r)
          else st.rows
        let counter' :=
          if doRestore && !stockIds.isEmpty && ctx.productFound then
            st.counter + creds.length
          else st.counter
        let history' := refundTx :: st.history.map (resolve "Devuelto")
        .ok { balance := newBalance, history := history', rows := rows', counter := counter' }
    else
      .ok { st with history := st.history.map (resolve "Completada") }

/-- JS `String.prototype.trim()` (whitespace stripped from both ends),
defined structurally over the character list. -/
def jsTrim (s : String) : String :=
  ⟨((s.data.dropWhile Char.isWhitespace).reverse.dropWhile Char.isWhitespace).reverse⟩

/-- JS `toUpperCase()`, defined structurally over the character list. -/
def jsUpper (s : String) : String := ⟨s.data.map Char.toUpper⟩

/-- JS `s.slice(-6)`: the last six characters (whole string if shorter). -/
def sliceLast6 (s : String) : String := ⟨s.data.drop (s.data.length - 6)⟩

/-- db.js 1264-1271: backfill a missing/blank order code, deterministically
from the id when one is present, else from a random code (passed in as
`freshCode`).  (`base.toString(36)` in the source is a no-op: `base` is
already a string.) -/
def ensureOrderCode (freshCode : String) (tx : Tx) : Tx :=
  if jsTrim (tx.orderCode.getD "") != "" then tx
  else
    let base := jsTrim (TxId.toStr tx.id)
    let code :=
      if base != "" then "#ORD-" ++ jsUpper (sliceLast6 base)
      else "#ORD-" ++ freshCode
    { tx with orderCode := some code }

/-- The id/order-code match of POST /user/send-to-support (db.js 1275-1277):
string comparison against the trimmed incoming id.  Note there is no
status condition. -/
def supportMatch (incoming : String) (tx : Tx) : Bool :=
  let txIdStr := jsTrim (TxId.toStr tx.id)
  let txCodeStr := jsTrim (tx.orderCode.getD "")
  (txIdStr != "" && txIdStr == incoming) || (txCodeStr != "" && txCodeStr == incoming)

/-- The for-loop of POST /user/send-to-support: find the first matching
transaction, force the resolved provider name when the auto-repair lookup
found one, and set the status to 'Soporte' — whatever status the
transaction currently has. -/
def sendLoop (resolvedProvider : Option String) (freshCode dateStr message incoming : String) :
    List Tx → Option (List Tx)
  | [] => none
  | tx0 :: rest =>
    let tx := ensureOrderCode freshCode tx0
    if supportMatch incoming tx then
      let prov := (match resolvedProvider with
        | some p => some p
        | none => tx.details.provider)
      some ({ tx with
                status := "Soporte",
                details := { tx.details with
                              provider := prov,
                              supportMessage := some message,
                              supportDate := some dateStr } } :: rest)
    else
      match sendLoop resolvedProvider freshCode dateStr message incoming rest with
      | some h => some (tx0 :: h)
      | none => none

/-- POST /user/send-to-support (db.js 1241-1342).  `transactionIdStr` is
`String(transactionId)` of the request body; `resolvedProvider` the
username the stock/product auto-repair lookup resolved (if any).  Returns
the updated history, or `none` (404) when nothing matched. -/
def sendToSupport (resolvedProvider : Option String) (freshCode dateStr : String)
    (transactionIdStr message : String) (history : List Tx) : Option (List Tx) :=
  sendLoop resolvedProvider freshCode dateStr message (jsTrim transactionIdStr) history

/-! ## Admin recharge approval and commission (db.js 1980-2147) -/

/-- db.js 2042-2050: commission percentage selected by the referrer's
role string (role strings as stored by the application). -/
def commissionRate (role : String) : ℚ :=
  if role == "Distribuidor Premium" then 15/100
  else if role == "distribuidor" || role == "proveedor" then 10/100
  else 0

/-- db.js 1999: the user already has a Completed credit-type (recharge or
commission) entry in the ledger. -/
def hasPreviousRecharges (history : List Tx) : Bool :=
  history.any (fun tx => tx.status == "Completada" && tx.txType == "credit")

/-- db.js 2007 (and 2126 for reject): the transaction-lookup condition of
the admin approve/reject endpoints — JS strict `===` on the id, status
'Pendiente'. -/
def approveMatches (tid : TxId) (tx : Tx) : Bool :=
  strictIdEq tx.id tid && tx.status == "Pendiente"

/-- The commission credit appended to the referrer's ledger
(db.js 2056-2069). -/
def mkCommissionTx (ctid : Int) (dateStr username : String) (commission : ℚ) : Tx :=
  { id := .num ctid
    date := dateStr
    description := "Comision por recarga de " ++ username
    amount := commission
    txType := "credit"
    status := "Completada"
    isCommission := true }

/-- The referrer row the commission logic reads (role, balance, ledger). -/
structure RefUser where
  role : String := ""
  balance : ℚ := 0
  history : List Tx := []
  deriving Repr, DecidableEq

/-- Result of POST /admin/transaction/approve.  When `found = false` the
endpoint answered 404 before any write: every component equals its input.
`commission` is the amount credited to the referrer when the commission
branch fired. -/
structure ApproveResult where
  found : Bool
  balance : ℚ
  history : List Tx
  referrer : Option RefUser
  commission : Option ℚ
  deriving Repr, DecidableEq

/-- The commission branch of approve (db.js 2028-2089), as a function of
the credited amount, the first-recharge flag, the referrer-id presence
and the looked-up referrer row.  Returns the (possibly updated) referrer
row and the commission credited, if any. -/
def commissionStep (ctid : Int) (dateStr username : String) (amountToAdd : ℚ)
    (hasPrev hasReferrerId : Bool) (referrer : Option RefUser) :
    Option RefUser × Option ℚ :=
  if hasReferrerId && !hasPrev then
    match referrer with
    | some ref =>
      let commission := round2 (amountToAdd * commissionRate ref.role)
      if 0 < commission then
        (some { ref with
            balance := ref.balance + commission,
            history := mkCommissionTx ctid dateStr username commission :: ref.history },
         some commission)
      else (some ref, none)
    | none => (referrer, none)
  else (referrer, none)

/-- db.js 2006-2013: the source's `map` loop assigns `amountToAdd` on
every match, so its final value is the amount of the last matching
entry. -/
def approveAmount (tid : TxId) (history : List Tx) : ℚ :=
  ((history.filter (approveMatches tid)).getLast?).elim 0 (fun tx => tx.amount)

/-- POST /admin/transaction/approve (db.js 1980-2110).  Marks every
ledger entry matching (strict id equality, status 'Pendiente') as
'Completada'; the amount credited is, as in the source's `map` loop, the
amount of the *last* matching entry; the balance grows by it.  The
commission branch fires when the user has a referrer id, the referrer row
exists, this was the first completed credit entry, and the 2-decimal-
rounded commission is positive. -/
def adminApprove (tid : TxId) (ctid : Int) (dateStr username : String)
    (balance : ℚ) (history : List Tx) (hasReferrerId : Bool)
    (referrer : Option RefUser) : ApproveResult :=
  let hasPrev := hasPreviousRecharges history
  if history.any (approveMatches tid) then
    let updated := history.map (fun tx =>
      if approveMatches tid tx then { tx with status := "Completada" } else tx)
    let amountToAdd := approveAmount tid history
    let step := commissionStep ctid dateStr username amountToAdd hasPrev hasReferrerId referrer
    { found := true, balance := balance + amountToAdd, history := updated,
      referrer := step.1, commission := step.2 }
  else
    { found := false, balance := balance, history := history,
      referrer := referrer, commission := none }

/-- POST /admin/transaction/reject (db.js 2113-2147): same strict
lookup, sets matching entries to 'Rechazada', touches no balance. -/
def adminReject (tid : TxId) (history : List Tx) : Option (List Tx) :=
  if history.any (approveMatches tid) then
    some (history.map (fun tx =>
      if approveMatches tid tx then { tx with status := "Rechazada" } else tx))
  else none

/-! ## Provider-initiated proportional refund (db.js 3590-3674) -/

/-- The transaction lookup of POST /supplier/refund/proportional
(db.js 3617): ids compared as strings (`String(...)` on both sides),
restricted to debit entries. -/
def refundFindMatches (tid : TxId) (tx : Tx) : Bool :=
  TxId.toStr tx.id == TxId.toStr tid && tx.txType == "debit"

/-- The transaction lookup of POST /user/purchase/renovate (db.js 3696):
ids compared as strings, restricted to debit entries. -/
def renovateMatches (pid : TxId) (tx : Tx) : Bool :=
  TxId.toStr tx.id == TxId.toStr pid && tx.txType == "debit"

inductive PRErr where
  | badInput
  | txNotFound
  | alreadyRefunded
  | insufficientBalance
  deriving Repr, DecidableEq

/-- POST /supplier/refund/proportional (db.js 3590-3674): symmetric
provider-to-buyer reversal of the amount.  Guards: positive amount, the
buyer ledger entry found by string id comparison, not already 'Devuelto',
provider balance sufficient.  Debits the provider with a debit entry,
credits the buyer with a credit entry, marks the original 'Devuelto'. -/
def proportionalRefund (provTxId : Int) (dateStr : String) (amount : ℚ)
    (buyerTransactionId : TxId) (buyer provider : UserSt) :
    Except PRErr (UserSt × UserSt) :=
  if amount ≤ 0 then .error .badInput
  else
    match buyer.history.findIdx? (refundFindMatches buyerTransactionId) with
    | none => .error .txNotFound
    | some i =>
      match buyer.history.get? i with
      | none => .error .txNotFound
      | some targetTx =>
        if targetTx.status == "Devuelto" then .error .alreadyRefunded
        else if provider.balance < amount then .error .insufficientBalance
        else
          let provTx : Tx :=
            { id := .num provTxId, date := dateStr, amount := amount,
              txType := "debit", status := "Completada" }
          let provider' := { provider with
            balance := provider.balance - amount, history := provTx :: provider.history }
          let refundCreditTx : Tx :=
            { id := .num (provTxId + 1), date := dateStr, amount := amount,
              txType := "credit", status := "Completada" }
          let marked := buyer.history.set i
            { targetTx with
                status := "Devuelto",
                details := { targetTx.details with
                              refundDate := some dateStr, refundAmount := some amount } }
          let buyer' := { buyer with
            balance := buyer.balance + amount, history := refundCreditTx :: marked }
          .ok (buyer', provider')

/-! ## Premium membership upgrade (db.js 2684-2790) -/

/-- POST /user/premium-upgrade, balance-affecting part (db.js 2705-2775):
guard `balance < amount`, exact debit, role promotion, debit ledger entry.
The expiry-date calendar arithmetic (JS `setMonth`) is external date
behaviour and is passed through as the preformatted `expStr`. -/
def premiumUpgrade (txId : Int) (dateStr expStr : String) (amount : ℚ)
    (role : String) (balance : ℚ) (history : List Tx) :
    Option (ℚ × String × List Tx) :=
  if balance < amount then none
  else
    let targetRole :=
      if role == "proveedor" || role == "Proveedor Premium" then "Proveedor Premium"
      else "Distribuidor Premium"
    let tx : Tx :=
      { id := .num txId, date := dateStr, amount := amount,
        txType := "debit", status := "Completada",
        details := { purchaseDate := some dateStr, duration := some expStr } }
    some (balance - amount, targetRole, tx :: history)

/-! ## Withdrawal workflow (db.js 3803-3872, 3921-3956, 3990-4105) -/

/-- A row of the `withdrawals` table. -/
structure Withdrawal where
  id : Nat
  userId : Nat
  amountOriginal : ℚ
  amountFinal : ℚ
  status : String
  deriving Repr, DecidableEq

inductive WErr where
  | invalidAmount
  | duplicateRequest
  | insufficientBalance
  | notFound
  | alreadyProcessed
  deriving Repr, DecidableEq

/-- POST /supplier/withdraw (db.js 3803-3872): reject non-positive
amounts; reject while a Pending request exists; compare the requested
gross and the balance at 2-decimal precision; then record the request
with `net = gross - gross * feeRate` and debit the *gross* amount from
the balance.  No ledger entry is written. -/
def withdrawCreate (feeRate : ℚ) (newId userId : Nat) (amount balance : ℚ)
    (withdrawals : List Withdrawal) : Except WErr (ℚ × List Withdrawal) :=
  if amount ≤ 0 then .error .invalidAmount
  else if withdrawals.any (fun w => w.userId == userId && w.status == "Pending") then
    .error .duplicateRequest
  else
    let requested := round2 amount
    let available := round2 balance
    if available < requested then .error .insufficientBalance
    else
      let fee := amount * feeRate
      let finalAmount := amount - fee
      .ok (balance - amount,
        withdrawals ++ [{ id := newId, userId := userId, amountOriginal := amount,
                          amountFinal := finalAmount, status := "Pending" }])

/-- The ledger entry appended on withdrawal approval (db.js 4025-4034):
a debit for the *net* amount. -/
def mkWithdrawApprovedTx (txId : Int) (dateStr : String) (net : ℚ) : Tx :=
  { id := .num txId, date := dateStr, description := "RETIRO DE FONDOS APROBADO",
    amount := net, txType := "debit", status := "Completada" }

/-- The ledger entry appended on withdrawal rejection (db.js 4070-4078):
a credit restoring the full gross amount. -/
def mkWithdrawRejectedTx (txId : Int) (dateStr : String) (gross : ℚ) : Tx :=
  { id := .num txId, date := dateStr, description := "RETIRO RECHAZADO (Saldo Restaurado)",
    amount := gross, txType := "credit", status := "Completada" }

/-- POST /admin/withdraw/manage (db.js 3990-4105).  Approve: mark the
request Approved and append a net-amount debit entry — the balance is not
touched (the gross hold stands).  Reject: mark Rejected, restore the full
gross amount to the balance, append a matching credit entry.  Any other
action string falls through with no write (the source still answers 200). -/
def withdrawManage (action : String) (wid : Nat) (txId : Int) (dateStr : String)
    (withdrawals : List Withdrawal) (balance : ℚ) (history : List Tx) :
    Except WErr (List Withdrawal × ℚ × List Tx) :=
  match withdrawals.find? (fun w => w.id == wid) with
  | none => .error .notFound
  | some w =>
    if w.status != "Pending" then .error .alreadyProcessed
    else if action == "approve" then
      .ok (withdrawals.map (fun x => if x.id == wid then { x with status := "Approved" } else x),
           balance,
           mkWithdrawApprovedTx txId dateStr w.amountFinal :: history)
    else if action == "reject" then
      .ok (withdrawals.map (fun x => if x.id == wid then { x with status := "Rejected" } else x),
           balance + w.amountOriginal,
           mkWithdrawRejectedTx txId dateStr w.amountOriginal :: history)
    else .ok (withdrawals, balance, history)

/-- POST /supplier/withdraw/cancel (db.js 3921-3956): only while Pending
and owned by the caller; deletes the request and restores the gross
amount.  No ledger entry. -/
def withdrawCancel (wid userId : Nat) (withdrawals : List Withdrawal) (balance : ℚ) :
    Except WErr (List Withdrawal × ℚ) :=
  match withdrawals.find? (fun w =>
      w.id == wid && w.userId == userId && w.status == "Pending") with
  | none => .error .notFound
  | some w =>
    .ok (withdrawals.filter (fun x => x.id != wid), balance + w.amountOriginal)

/-! ## Concrete states used by the claim theorems -/

/-- C1 failing input: one published, unsold, one-unit stock row. -/
def c1rows : List StockRow :=
  [{ id := 1, data := { status := "Publicado", quantity := 1 } }]

/-- The same row after the write the allocation loop issued on the way to
the insufficient-stock return: marked sold to buyer 7, price stamped. -/
def c1rowsAfter : List StockRow :=
  [{ id := 1
     isSold := true
     soldTo := some 7
     data := { status := "Publicado", quantity := 1, priceSoldPerUnit := some 5 } }]

/-- C2 failing input: a sold row of quantity 2 whose sale (as a whole
record) produced a single credential entry. -/
def c2rows : List StockRow :=
  [{ id := 1
     isSold := true
     soldTo := some 7
     data := { status := "Publicado", quantity := 2 } }]

/-- C2 failing input: the Support-status purchase transaction holding the
quantity-2 credential. -/
def c2tx : Tx :=
  { id := .num 3
    amount := 30
    txType := "debit"
    status := "Soporte"
    details := { delivery := some "Autoentrega"
                 fullCredentials := [{ stockId := some 1, quantity := 2 }] } }

/-- C2: the pre-refund state; the cached counter 0 equals the pool sum 0
(the only row is sold), so the invariant holds before the operation. -/
def c2st : HSState := { balance := 0, history := [c2tx], rows := c2rows, counter := 0 }

/-- C3 failing input: a $30 Support-status purchase with duration label
'30 Días'. -/
def c3tx : Tx :=
  { id := .num 5
    amount := 30
    txType := "debit"
    status := "Soporte"
    details := { duration := some "30 Días", delivery := some "A pedido" } }

/-- C3: refund balance projection of a handle-support run. -/
def hsBalance (r : Except HSErr HSState) : Option ℚ :=
  match r with
  | .ok s => some s.balance
  | .error _ => none

/-- C8 starting transaction: a $30 purchase currently in Support (made-to-
order delivery, so no stock rows are involved in the refunds). -/
def c8tx : Tx :=
  { id := .num 1
    amount := 30
    txType := "debit"
    status := "Soporte"
    details := { duration := some "30 Días", delivery := some "A pedido" } }

/-- C8: the status of the purchase transaction right after the first
refund. -/
def c8statusAfterFirst : Option String :=
  match handleSupport ⟨0, 0, 100, "d1", true⟩ "refund" (.num 1) ⟨0, [c8tx], [], 0⟩ with
  | .error _ => none
  | .ok s1 => (s1.history.find? (fun tx => strictIdEq tx.id (.num 1))).map (fun tx => tx.status)

/-- C8: the buyer balance after refunding, re-raising support on the
already-refunded transaction, and refunding again. -/
def c8doubleRefundBalance : Option ℚ :=
  match handleSupport ⟨0, 0, 100, "d1", true⟩ "refund" (.num 1) ⟨0, [c8tx], [], 0⟩ with
  | .error _ => none
  | .ok s1 =>
    match sendToSupport none "ZZZZZZ" "d2" "1" "ayuda" s1.history with
    | none => none
    | some h2 =>
      match handleSupport ⟨0, 0, 200, "d3", true⟩ "refund" (.num 1) { s1 with history := h2 } with
      | .error _ => none
      | .ok s3 => some s3.balance

/-- C8: the refund credit appended by the first refund. -/
def c8refundTx1 : Tx :=
  { id := .num 100, date := "d1", amount := 30, txType := "credit", status := "Completada" }

/-- C8: the purchase transaction after the first refund: 'Devuelto'. -/
def c8devTx : Tx := { c8tx with status := "Devuelto" }

/-- C8: the purchase transaction after send-to-support re-raised it from
'Devuelto' back to 'Soporte' (order code backfilled, support fields set). -/
def c8supTx : Tx :=
  { c8tx with
      status := "Soporte"
      orderCode := some "#ORD-1"
      details := { c8tx.details with
                    supportMessage := some "ayuda"
                    supportDate := some "d2" } }

/-- C8: the refund credit appended by the second refund. -/
def c8refundTx2 : Tx :=
  { id := .num 200, date := "d3", amount := 30, txType := "credit", status := "Completada" }

/-- C6/C7 witness data: one published two-unit stock row. -/
def c6rows : List StockRow :=
  [{ id := 1, data := { status := "Publicado", quantity := 2 } }]

/-- C6 witness data: the purchased product. -/
def c6prod : Product :=
  { name := "X", duration := "30 Días", delivery := "Autoentrega", providerName := "p" }

/-- C10 witness data: a Pending $10 recharge with numeric id 7. -/
def c10tx : Tx :=
  { id := .num 7, amount := 10, txType := "credit", status := "Pendiente" }

/-- C7 witness data: a completed $30 purchase entry in the buyer's
ledger, target of a provider-side proportional refund. -/
def c7rtx : Tx := { id := .num 4, amount := 30, txType := "debit", status := "Completada" }

/-- C9 counterexample entry: a Pending recharge whose id is the numeric
timestamp 123. -/
def c9tx : Tx :=
  { id := .num 123, amount := 10, txType := "credit", status := "Pendiente" }

/-- C9 counterexample ledger. -/
def c9history : List Tx := [c9tx]

/-- C4 counterexample ledger: a first (Pending) recharge of $0.04. -/
def c4history : List Tx :=
  [{ id := .num 9, amount := 1/25, txType := "credit", status := "Pendiente" }]

/-! ## Supporting lemmas -/

theorem availableInRow_pos (d : StockData) : 1 ≤ availableInRow d := by
  unfold availableInRow; split <;> omega

theorem loopCap_cons (r : StockRow) (rest : List StockRow) :
    loopCap (r :: rest) = rowCap r + loopCap rest := by
  simp [loopCap]

/-- The allocation loop collects exactly `min (collected + capacity) qty`
units: all it can up to the requested quantity. -/
theorem allocLoop_collected (b : Nat) (p : ℚ) (qty : Nat) :
    ∀ (rows : List StockRow) (c n : Nat), c ≤ qty →
      (allocLoop b p qty rows c n).collected = min (c + loopCap rows) qty := by
  intro rows
  induction rows with
  | nil =>
    intro c n hc
    simp only [allocLoop, loopCap, List.map_nil, List.sum_nil]
    omega
  | cons r rest ih =>
    intro c n hc
    rw [loopCap_cons]
    by_cases hq : qty ≤ c
    · simp only [allocLoop, if_pos hq]
      omega
    · rw [allocLoop]
      rw [if_neg hq]
      by_cases hs : (r.data.status == "Sin publicar") = true
      · rw [if_pos hs]
        have hcap : rowCap r = 0 := by simp [rowCap, hs]
        rw [ih c n hc, hcap]
        omega
      · rw [if_neg hs]
        have hcap : rowCap r = availableInRow r.data := by
          simp [rowCap]
          intro h
          exact absurd (by simp [h]) hs
        simp only []
        by_cases hn : qty - c < availableInRow r.data
        · rw [if_pos hn]
          simp only []
          have := ih (c + (qty - c)) (n + (qty - c)) (by omega)
          simp only [this]
          have := availableInRow_pos r.data
          omega
        · rw [if_neg hn]
          simp only []
          have h2 : c + availableInRow r.data ≤ qty := by omega
          have := ih (c + availableInRow r.data) n h2
          simp only [this]
          omega

/-- The purchase allocation pass collects `min (capacity) qty`. -/
theorem allocRun_collected (b : Nat) (p : ℚ) (qty : Nat) (rows : List StockRow) (nid : Nat) :
    (allocRun b p qty rows nid).collected = min (capacity rows) qty := by
  unfold allocRun capacity
  rw [allocLoop_collected b p qty _ 0 nid (Nat.zero_le qty)]
  simp

theorem map_skip_all {α : Type} (p : α → Bool) (f : α → α) :
    ∀ l : List α, (∀ x ∈ l, p x = false) →
      l.map (fun x => if p x then f x else x) = l := by
  intro l h
  induction l with
  | nil => rfl
  | cons a rest ih =>
    have ha := h a (List.mem_cons_self a rest)
    simp only [List.map_cons, ha, if_false, Bool.false_eq_true]
    rw [ih (fun x hx => h x (List.mem_cons_of_mem a hx))]

theorem filter_partition_single (p : Tx → Bool) (pre post : List Tx) (t : Tx)
    (hpre : ∀ x ∈ pre, p x = false) (hpost : ∀ x ∈ post, p x = false)
    (ht : p t = true) :
    (pre ++ t :: post).filter p = [t] := by
  rw [List.filter_append]
  have h1 : pre.filter p = [] := List.filter_eq_nil_iff.mpr (by intro a ha; simp [hpre a ha])
  have h2 : post.filter p = [] := List.filter_eq_nil_iff.mpr (by intro a ha; simp [hpost a ha])
  rw [h1, List.filter_cons_of_pos ht, h2]
  rfl

/-- The 2-decimal rounded comparison admits an exact shortfall of up to
one cent: if `round2 x ≤ round2 y` then `y - x > -1/100`. -/
theorem round2_le_bound {x y : ℚ} (h : round2 x ≤ round2 y) : -(1/100) < y - x := by
  unfold round2 at h
  have h100 : (0 : ℚ) < 100 := by norm_num
  have hff : ((Int.floor (x * 100 + 1/2) : ℚ)) ≤ ((Int.floor (y * 100 + 1/2) : ℚ)) := by
    have := (div_le_div_iff_of_pos_right h100).mp h
    exact_mod_cast this
  have h1 : x * 100 + 1/2 < (Int.floor (x * 100 + 1/2) : ℚ) + 1 :=
    Int.lt_floor_add_one _
  have h2 : ((Int.floor (y * 100 + 1/2) : ℚ)) ≤ y * 100 + 1/2 := Int.floor_le _
  nlinarith

theorem poolSum_eq_map_sum (rows : List StockRow) :
    poolSum rows = (rows.map rowPool).sum := by
  induction rows with
  | nil => rfl
  | cons r rest ih =>
    by_cases h : (!r.isSold && r.data.status != "Sin publicar") = true
    · simp [poolSum, rowPool, List.filter_cons, h] at ih ⊢
      omega
    · simp [poolSum, rowPool, List.filter_cons, h] at ih ⊢
      omega

theorem poolSum_cons (r : StockRow) (rest : List StockRow) :
    poolSum (r :: rest) = rowPool r + poolSum rest := by
  simp [poolSum_eq_map_sum]

theorem allocLoop_targets (b : Nat) (p : ℚ) (qty : Nat) :
    ∀ (rows : List StockRow) (c n : Nat) (w : StockWrite),
      w ∈ (allocLoop b p qty rows c n).writes →
      ∀ rid, writeTarget w = some rid → rid ∈ rows.map StockRow.id := by
  intro rows
  induction rows with
  | nil =>
    intro c n w hw
    rw [allocLoop] at hw
    exact absurd hw (List.not_mem_nil w)
  | cons r rest ih =>
    intro c n w hw rid hrid
    rw [allocLoop] at hw
    by_cases hq : qty ≤ c
    · rw [if_pos hq] at hw
      exact absurd hw (List.not_mem_nil w)
    · rw [if_neg hq] at hw
      by_cases hs : (r.data.status == "Sin publicar") = true
      · rw [if_pos hs] at hw
        exact List.mem_cons_of_mem _ (ih c n w hw rid hrid)
      · rw [if_neg hs] at hw
        by_cases hn : qty - c < availableInRow r.data
        · rw [if_pos hn] at hw
          simp only [List.mem_cons, List.mem_append, List.mem_map, List.mem_range] at hw
          rcases hw with h1 | ⟨k, -, hk⟩ | h3
          · subst h1
            simp [writeTarget] at hrid
            subst hrid
            simp
          · rw [← hk] at hrid
            simp [writeTarget] at hrid
          · exact List.mem_cons_of_mem _
              (ih (c + (qty - c)) (n + (qty - c)) w h3 rid hrid)
        · rw [if_neg hn] at hw
          simp only [List.mem_cons] at hw
          rcases hw with h1 | h2
          · subst h1
            simp [writeTarget] at hrid
            subst hrid
            simp
          · exact List.mem_cons_of_mem _
              (ih (c + availableInRow r.data) n w h2 rid hrid)



theorem allocLoop_done (b : Nat) (p : ℚ) (qty : Nat) (l : List StockRow) (c n : Nat)
    (h : qty ≤ c) : allocLoop b p qty l c n = ⟨c, [], n, []⟩ := by
  cases l with
  | nil => rw [allocLoop]
  | cons r rest => rw [allocLoop, if_pos h]

theorem map_update_skip (rid : Nat) (f : StockRow → StockRow) :
    ∀ rows : List StockRow, rid ∉ rows.map StockRow.id →
      rows.map (fun x => if x.id == rid then f x else x) = rows := by
  intro rows h
  induction rows with
  | nil => rfl
  | cons a rest ih =>
    simp only [List.map_cons, List.mem_cons, not_or] at h ⊢
    have ha : (a.id == rid) = false := by
      simp only [beq_eq_false_iff_ne]
      exact fun e => h.1 e.symm
    rw [ha]
    simp only [Bool.false_eq_true, if_false]
    rw [ih h.2]

theorem applyWrite_cons_skip (r : StockRow) (rows : List StockRow) (w : StockWrite)
    (h : ∀ rid, writeTarget w = some rid → rid ≠ r.id) :
    applyWrite (r :: rows) w = r :: applyWrite rows w := by
  cases w with
  | updateData rid d =>
    have hne : (r.id == rid) = false := by
      simp only [beq_eq_false_iff_ne]
      exact fun e => (h rid rfl) e.symm
    simp only [applyWrite, List.map_cons, hne, Bool.false_eq_true, if_false]
  | markSold rid b d =>
    have hne : (r.id == rid) = false := by
      simp only [beq_eq_false_iff_ne]
      exact fun e => (h rid rfl) e.symm
    simp only [applyWrite, List.map_cons, hne, Bool.false_eq_true, if_false]
  | insertSold rid b d => rfl



theorem applyWrites_cons_skip (r : StockRow) :
    ∀ (ws : List StockWrite) (rows : List StockRow),
      (∀ w ∈ ws, ∀ rid, writeTarget w = some rid → rid ≠ r.id) →
      applyWrites (r :: rows) ws = r :: applyWrites rows ws := by
  intro ws
  induction ws with
  | nil => intro rows h; rfl
  | cons w rest ih =>
    intro rows h
    simp only [applyWrites, List.foldl_cons]
    rw [applyWrite_cons_skip r rows w (h w (List.mem_cons_self w rest))]
    exact ih (applyWrite rows w) (fun w' hw' => h w' (List.mem_cons_of_mem w hw'))

theorem poolSum_append (a l : List StockRow) : poolSum (a ++ l) = poolSum a + poolSum l := by
  simp [poolSum_eq_map_sum]

theorem poolSum_applyWrites_inserts :
    ∀ (ws : List StockWrite) (rows : List StockRow),
      (∀ w ∈ ws, writeTarget w = none) →
      poolSum (applyWrites rows ws) = poolSum rows := by
  intro ws
  induction ws with
  | nil => intro rows _; rfl
  | cons w rest ih =>
    intro rows h
    simp only [applyWrites, List.foldl_cons]
    have hw := h w (List.mem_cons_self w rest)
    cases w with
    | updateData rid d => simp [writeTarget] at hw
    | markSold rid b d => simp [writeTarget] at hw
    | insertSold rid b d =>
      have := ih (applyWrite rows (.insertSold rid b d))
        (fun w' hw' => h w' (List.mem_cons_of_mem _ hw'))
      rw [applyWrites] at this
      rw [this]
      simp [applyWrite, poolSum_append, poolSum_cons, rowPool, poolSum]



theorem allocLoop_cons_whole (b : Nat) (p : ℚ) (qty : Nat) (r : StockRow)
    (l : List StockRow) (c n : Nat)
    (h1 : ¬ qty ≤ c) (h2 : ¬ (r.data.status == "Sin publicar") = true)
    (h3 : ¬ (qty - c < availableInRow r.data)) :
    allocLoop b p qty (r :: l) c n =
      ⟨(allocLoop b p qty l (c + availableInRow r.data) n).collected,
       StockWrite.markSold r.id b { r.data with priceSoldPerUnit := some p } ::
         (allocLoop b p qty l (c + availableInRow r.data) n).writes,
       (allocLoop b p qty l (c + availableInRow r.data) n).nextId,
       ({ stockId := some r.id, quantity := r.data.quantity } : Credential) ::
         (allocLoop b p qty l (c + availableInRow r.data) n).creds⟩ := by
  rw [allocLoop]
  simp only [if_neg h1, if_neg h2, if_neg h3]

theorem allocLoop_cons_split (b : Nat) (p : ℚ) (qty : Nat) (r : StockRow)
    (l : List StockRow) (c n : Nat)
    (h1 : ¬ qty ≤ c) (h2 : ¬ (r.data.status == "Sin publicar") = true)
    (h3 : qty - c < availableInRow r.data) :
    allocLoop b p qty (r :: l) c n =
      ⟨(allocLoop b p qty l (c + (qty - c)) (n + (qty - c))).collected,
       StockWrite.updateData r.id
           { r.data with quantity := availableInRow r.data - (qty - c) } ::
         ((List.range (qty - c)).map (fun k => StockWrite.insertSold (n + k) b
             { r.data with quantity := 1, priceSoldPerUnit := some p }) ++
           (allocLoop b p qty l (c + (qty - c)) (n + (qty - c))).writes),
       (allocLoop b p qty l (c + (qty - c)) (n + (qty - c))).nextId,
       (List.range (qty - c)).map (fun k =>
           ({ stockId := some (n + k), quantity := 1 } : Credential)) ++
         (allocLoop b p qty l (c + (qty - c)) (n + (qty - c))).creds⟩ := by
  rw [allocLoop]
  simp only [if_neg h1, if_neg h2, if_pos h3]



theorem targets_avoid_head (b : Nat) (p : ℚ) (qty : Nat) (r : StockRow)
    (rest : List StockRow) (c n : Nat) (hrid : r.id ∉ rest.map StockRow.id) :
    ∀ w ∈ (allocLoop b p qty (rest.filter (fun x => !x.isSold)) c n).writes,
      ∀ rid, writeTarget w = some rid → rid ≠ r.id := by
  intro w hw rid hr
  have hmem := allocLoop_targets b p qty _ c n w hw rid hr
  intro he
  apply hrid
  subst he
  obtain ⟨x, hx, hxe⟩ := List.mem_map.mp hmem
  exact List.mem_map.mpr ⟨x, List.mem_of_mem_filter hx, hxe⟩

theorem poolSum_allocLoop (b : Nat) (p : ℚ) (qty : Nat) :
    ∀ (rows : List StockRow) (c n : Nat),
      (rows.map StockRow.id).Nodup →
      (∀ r ∈ rows, 1 ≤ r.data.quantity) →
      c ≤ qty →
      poolSum (applyWrites rows
          (allocLoop b p qty (rows.filter (fun x => !x.isSold)) c n).writes)
        + (allocLoop b p qty (rows.filter (fun x => !x.isSold)) c n).collected
      = poolSum rows + c := by
  intro rows
  induction rows with
  | nil =>
    intro c n _ _ _
    rw [show (List.filter (fun x => !x.isSold) [] : List StockRow) = [] from rfl,
        allocLoop]
    rfl
  | cons r rest ih =>
    intro c n hnd hq1 hc
    have hnd' : (rest.map StockRow.id).Nodup := by
      simp only [List.map_cons, List.nodup_cons] at hnd
      exact hnd.2
    have hrid : r.id ∉ rest.map StockRow.id := by
      simp only [List.map_cons, List.nodup_cons] at hnd
      exact hnd.1
    have hq1' : ∀ x ∈ rest, 1 ≤ x.data.quantity :=
      fun x hx => hq1 x (List.mem_cons_of_mem r hx)
    have hqr : 1 ≤ r.data.quantity := hq1 r (List.mem_cons_self r rest)
    have havail : availableInRow r.data = r.data.quantity := by
      unfold availableInRow
      rw [if_neg (by omega)]
    by_cases hsold : r.isSold = true
    · have hfil : (r :: rest).filter (fun x => !x.isSold) =
          rest.filter (fun x => !x.isSold) := by
        rw [List.filter_cons, if_neg (by simp [hsold])]
      rw [hfil]
      rw [applyWrites_cons_skip r _ rest (targets_avoid_head b p qty r rest c n hrid)]
      simp only [poolSum_cons]
      have hr0 : rowPool r = 0 := by simp [rowPool, hsold]
      rw [hr0]
      have := ih c n hnd' hq1' hc
      omega
    · have hfil : (r :: rest).filter (fun x => !x.isSold) =
          r :: rest.filter (fun x => !x.isSold) := by
        rw [List.filter_cons, if_pos (by simp [hsold])]
      rw [hfil]
      by_cases hq : qty ≤ c
      · rw [allocLoop_done b p qty _ c n hq]
        rfl
      · by_cases hs : (r.data.status == "Sin publicar") = true
        · rw [show allocLoop b p qty (r :: rest.filter (fun x => !x.isSold)) c n =
              allocLoop b p qty (rest.filter (fun x => !x.isSold)) c n by
            rw [allocLoop, if_neg hq, if_pos hs]]
          rw [applyWrites_cons_skip r _ rest (targets_avoid_head b p qty r rest c n hrid)]
          simp only [poolSum_cons]
          have hr0 : rowPool r = 0 := by
            simp only [rowPool]
            rw [if_neg (by simp_all)]
          rw [hr0]
          have := ih c n hnd' hq1' hc
          omega
        · by_cases hn : qty - c < availableInRow r.data
          · rw [allocLoop_cons_split b p qty r _ c n hq hs hn]
            rw [allocLoop_done b p qty _ (c + (qty - c)) (n + (qty - c)) (by omega)]
            simp only [applyWrites, List.foldl_cons, List.append_nil]
            have hupd : applyWrite (r :: rest) (StockWrite.updateData r.id { r.data with quantity := availableInRow r.data - (qty - c) }) = { r with data := { r.data with quantity := availableInRow r.data - (qty - c) } } :: rest := by
              simp only [applyWrite, List.map_cons, beq_self_eq_true, if_true]
              rw [map_update_skip r.id _ rest hrid]
            rw [hupd]
            have hins : poolSum (List.foldl applyWrite ({ r with data := { r.data with quantity := availableInRow r.data - (qty - c) } } :: rest) ((List.range (qty - c)).map (fun k => StockWrite.insertSold (n + k) b { r.data with quantity := 1, priceSoldPerUnit := some p }))) = poolSum ({ r with data := { r.data with quantity := availableInRow r.data - (qty - c) } } :: rest) := by
              apply poolSum_applyWrites_inserts
              intro w hw
              obtain ⟨k, -, hk⟩ := List.mem_map.mp hw
              rw [← hk]
              rfl
            rw [hins]
            simp only [poolSum_cons]
            have hpub : rowPool { r with data := { r.data with quantity := availableInRow r.data - (qty - c) } } = availableInRow r.data - (qty - c) := by
              simp only [rowPool]
              rw [if_pos (by simp_all)]
            have hpr : rowPool r = r.data.quantity := by
              simp only [rowPool]
              rw [if_pos (by simp_all)]
            rw [hpub, hpr, havail]
            omega
          · rw [allocLoop_cons_whole b p qty r _ c n hq hs hn]
            simp only [applyWrites, List.foldl_cons]
            have hupd : applyWrite (r :: rest) (StockWrite.markSold r.id b { r.data with priceSoldPerUnit := some p }) = { r with isSold := true, soldTo := some b, data := { r.data with priceSoldPerUnit := some p } } :: rest := by
              simp only [applyWrite, List.map_cons, beq_self_eq_true, if_true]
              rw [map_update_skip r.id _ rest hrid]
            rw [hupd]
            rw [show List.foldl applyWrite ({ r with isSold := true, soldTo := some b, data := { r.data with priceSoldPerUnit := some p } } :: rest) (allocLoop b p qty (rest.filter (fun x => !x.isSold)) (c + availableInRow r.data) n).writes = applyWrites ({ r with isSold := true, soldTo := some b, data := { r.data with priceSoldPerUnit := some p } } :: rest) (allocLoop b p qty (rest.filter (fun x => !x.isSold)) (c + availableInRow r.data) n).writes from rfl]
            rw [applyWrites_cons_skip { r with isSold := true, soldTo := some b, data := { r.data with priceSoldPerUnit := some p } } _ rest (targets_avoid_head b p qty { r with isSold := true, soldTo := some b, data := { r.data with priceSoldPerUnit := some p } } rest (c + availableInRow r.data) n hrid)]
            simp only [poolSum_cons]
            have hr0 : rowPool { r with isSold := true, soldTo := some b, data := { r.data with priceSoldPerUnit := some p } } = 0 := by
              simp [rowPool]
            have hpr : rowPool r = r.data.quantity := by
              simp only [rowPool]
              rw [if_pos (by simp_all)]
            rw [hr0, hpr]
            have hc2 : c + availableInRow r.data ≤ qty := by omega
            have := ih (c + availableInRow r.data) n hnd' hq1' hc2
            omega



theorem capacity_eq_poolSum (rows : List StockRow)
    (hq1 : ∀ r ∈ rows, 1 ≤ r.data.quantity) : capacity rows = poolSum rows := by
  induction rows with
  | nil => rfl
  | cons r rest ih =>
    have hq1' : ∀ x ∈ rest, 1 ≤ x.data.quantity :=
      fun x hx => hq1 x (List.mem_cons_of_mem r hx)
    have hqr : 1 ≤ r.data.quantity := hq1 r (List.mem_cons_self r rest)
    have havail : availableInRow r.data = r.data.quantity := by
      unfold availableInRow
      rw [if_neg (by omega)]
    have ihe := ih hq1'
    unfold capacity at ihe ⊢
    simp only [poolSum_cons]
    rw [List.filter_cons]
    by_cases hsold : r.isSold = true
    · rw [if_neg (by simp [hsold])]
      have hr0 : rowPool r = 0 := by simp [rowPool, hsold]
      omega
    · rw [if_pos (by simp [hsold])]
      rw [loopCap_cons]
      by_cases hs : (r.data.status == "Sin publicar") = true
      · have h1 : rowCap r = 0 := by simp [rowCap, hs]
        have h2 : rowPool r = 0 := by
          simp only [rowPool]
          rw [if_neg (by simp_all)]
        omega
      · have h1 : rowCap r = availableInRow r.data := by
          simp only [rowCap]
          rw [if_neg hs]
        have h2 : rowPool r = r.data.quantity := by
          simp only [rowPool]
          rw [if_pos (by simp_all)]
        omega

/-- C2, allocation side: the decrement-in-place of the cached counter
(db.js 2590) preserves the counter invariant when it held before the
purchase (ids unique, quantities positive): the new counter value
`counter - qty` again equals the published-unsold pool sum after the
allocation writes. -/
theorem C2_allocation_preserves_counter_invariant
    (b : Nat) (p : ℚ) (qty : Nat) (rows : List StockRow) (nid : Nat) (counter : Int)
    (hnd : (rows.map StockRow.id).Nodup)
    (hq1 : ∀ r ∈ rows, 1 ≤ r.data.quantity)
    (hstock : qty ≤ capacity rows)
    (hinv : counter = (poolSum rows : Int)) :
    counter - qty =
      (poolSum (applyWrites rows (allocRun b p qty rows nid).writes) : Int) := by
  have hm := poolSum_allocLoop b p qty rows 0 nid hnd hq1 (Nat.zero_le qty)
  have hcol : (allocRun b p qty rows nid).collected = qty := by
    rw [allocRun_collected]
    omega
  simp only [allocRun] at hcol
  rw [hcol] at hm
  subst hinv
  simp only [allocRun]
  omega

/-! ## Claim theorems -/

/-- C1: evaluating the purchase endpoint at the failing input — a pool of
total available capacity 1 (one published one-unit row) and a request for
quantity 2.  The endpoint answers insufficient-stock, but the row has
already been marked sold (the `client.execute` started inside the loop is
not cancelled by the early 409 return): the claim's "mutates nothing" is
violated, while the claim (and spec §4.1: "abort with no partial commit …
determined by a pre-scan before mutating") states the code's evident
intent. -/
theorem C1_insufficientStock_still_marks_rows_sold :
    capacity c1rows = 1
    ∧ purchase "AB" 99 "d" { name := "X" } 10 2 5 7 { balance := 100 } {} c1rows 5 50 =
        PurchaseOut.insufficientStock c1rowsAfter 50
    ∧ c1rowsAfter ≠ c1rows := by
  refine ⟨by decide, ?_, by decide⟩
  have hbal : ¬ ((100 : ℚ) < 10) := by norm_num
  have hs : ¬ (("Publicado" : String) = "Sin publicar") := by decide
  simp only [purchase]
  rw [if_neg hbal]
  norm_num [allocRun, c1rows, allocLoop, availableInRow, applyWrites, applyWrite, hs,
    c1rowsAfter]

/-- C2: evaluating the handle-support refund at the failing input.  The
pre-state satisfies the invariant (counter 0 equals the published-unsold
pool sum 0, the only row being sold).  The refund restores the quantity-2
row to unsold — raising the pool sum to 2 — but increments the cached
counter by `fullCredentials.length = 1` (db.js 3509), so after the
restoration the counter (1) no longer equals the pool sum (2). -/
theorem C2_restock_counter_drifts_from_pool_sum :
    c2st.counter = (poolSum c2st.rows : Int)
    ∧ (match handleSupport ⟨0, 0, 50, "d", true⟩ "refund" (.num 3) c2st with
        | .ok s => some (s.counter, poolSum s.rows)
        | .error _ => none) = some (1, 2)
    ∧ (1 : Int) ≠ (2 : Nat) := by
  refine ⟨by decide, ?_, by decide⟩
  have hdiv : Int.fdiv 0 86400000 = 0 := by decide
  have hrem : ((0 : Int) ⊔ 30) = 30 := by decide
  simp only [handleSupport, c2st, c2tx, c2rows]
  norm_num [strictIdEq, refundTotalDays, hdiv, hrem, round2, poolSum]
  decide

/-- C3: the refund computation at the claim's own example.  The source
parses the duration digits with `parseInt(match[1], 16)` (db.js 3440),
against its own comment ("'30 Días' -> 30"), so a '30 Días' label yields
48 total days.  A $30 purchase refunded exactly 10 days after purchase is
credited $23.75, not the claimed $20.00; refunded 31 days after purchase
it is credited $10.63 instead of failing with NothingToRefund. -/
theorem C3_duration_parsed_as_hex :
    refundTotalDays (some "30 Días") = 48
    ∧ hsBalance (handleSupport ⟨0, 10 * 86400000, 99, "d", true⟩ "refund" (.num 5)
        ⟨0, [c3tx], [], 0⟩) = some (95/4)
    ∧ (95/4 : ℚ) ≠ 20
    ∧ hsBalance (handleSupport ⟨0, 31 * 86400000, 99, "d", true⟩ "refund" (.num 5)
        ⟨0, [c3tx], [], 0⟩) = some (1063/100) := by
  have hdur : refundTotalDays (some "30 Días") = 48 := by decide
  refine ⟨hdur, ?_, by norm_num, ?_⟩
  · have hdiv : Int.fdiv 864000000 86400000 = 10 := by decide
    have hrem : ((0 : Int) ⊔ 38) = 38 := by decide
    simp only [handleSupport, c3tx, hsBalance]
    norm_num [strictIdEq, hdur, hdiv, hrem, round2]
  · have hdiv : Int.fdiv 2678400000 86400000 = 31 := by decide
    have hrem : ((0 : Int) ⊔ 17) = 17 := by decide
    simp only [handleSupport, c3tx, hsBalance]
    norm_num [strictIdEq, hdur, hdiv, hrem, round2]

/-- C8: a committed double refund.  Starting from a $30 purchase in
Support and balance 0: the first handle-support refund credits $30 and
marks the transaction 'Devuelto'; send-to-support matches the transaction
by id with *no* status guard (db.js 1277) and moves it back to 'Soporte';
a second handle-support refund then credits another $30.  The buyer ends
with $60 from a single $30 purchase, violating the claim that a
transaction in 'Devuelto' can never be refunded again. -/
theorem C8_devuelto_can_be_refunded_again :
    c8statusAfterFirst = some "Devuelto" ∧ c8doubleRefundBalance = some 60 := by
  have hdur : refundTotalDays (some "30 Días") = 48 := by decide
  have hdiv : Int.fdiv 0 86400000 = 0 := by decide
  have hrem : ((0 : Int) ⊔ 48) = 48 := by decide
  have h1 : handleSupport ⟨0, 0, 100, "d1", true⟩ "refund" (.num 1) ⟨0, [c8tx], [], 0⟩ =
      .ok ⟨30, [c8refundTx1, c8devTx], [], 0⟩ := by
    simp only [handleSupport, c8tx, c8refundTx1, c8devTx]
    norm_num [strictIdEq, hdur, hdiv, hrem, round2]
  have h2 : sendToSupport none "ZZZZZZ" "d2" "1" "ayuda" [c8refundTx1, c8devTx] =
      some [c8refundTx1, c8supTx] := by decide
  have h3 : handleSupport ⟨0, 0, 200, "d3", true⟩ "refund" (.num 1)
      ⟨30, [c8refundTx1, c8supTx], [], 0⟩ =
      .ok ⟨60, [c8refundTx2, c8refundTx1,
        { c8supTx with
            status := "Devuelto"
            details := { c8supTx.details with supportMessage := none, supportDate := none } }],
        [], 0⟩ := by
    simp only [handleSupport, c8tx, c8refundTx1, c8supTx, c8refundTx2]
    norm_num [strictIdEq, hdur, hdiv, hrem, round2]
  constructor
  · simp only [c8statusAfterFirst, h1]
    decide
  · simp only [c8doubleRefundBalance, h1, h2, h3]

/-- C6: a completed purchase with distinct buyer and provider moves
exactly the amount: the buyer's balance drops by `amount` with one debit
entry prepended, the provider's balance grows by `amount` with one credit
entry prepended (and the stock counter is decremented by the purchased
quantity). -/
theorem C6_purchase_moves_amount_between_parties
    (ordCode dateStr : String) (provTxId : Int) (prod : Product)
    (amount : ℚ) (qty : Nat) (pricePerUnit : ℚ) (buyerId : Nat)
    (buyer provider : UserSt) (rows : List StockRow) (counter : Int) (nextRowId : Nat)
    (hbal : amount ≤ buyer.balance) (hstock : qty ≤ capacity rows) :
    purchase ordCode provTxId dateStr prod amount qty pricePerUnit buyerId
        buyer provider rows counter nextRowId =
      PurchaseOut.ok
        (applyWrites rows (allocRun buyerId pricePerUnit qty rows nextRowId).writes)
        (allocRun buyerId pricePerUnit qty rows nextRowId).nextId
        (counter - qty)
        { buyer with
            balance := buyer.balance - amount
            history := mkBuyerTx ordCode dateStr prod amount
                (allocRun buyerId pricePerUnit qty rows nextRowId).creds :: buyer.history }
        { provider with
            balance := provider.balance + amount
            history := mkProviderTx provTxId dateStr amount :: provider.history }
    ∧ (mkBuyerTx ordCode dateStr prod amount
        (allocRun buyerId pricePerUnit qty rows nextRowId).creds).amount = amount
    ∧ (mkBuyerTx ordCode dateStr prod amount
        (allocRun buyerId pricePerUnit qty rows nextRowId).creds).txType = "debit"
    ∧ (mkProviderTx provTxId dateStr amount).amount = amount
    ∧ (mkProviderTx provTxId dateStr amount).txType = "credit" := by
  refine ⟨?_, rfl, rfl, rfl, rfl⟩
  have h1 : ¬ (buyer.balance < amount) := not_lt.mpr hbal
  have h2 : ¬ ((allocRun buyerId pricePerUnit qty rows nextRowId).collected < qty) := by
    rw [allocRun_collected]; omega
  simp only [purchase, if_neg h1, if_neg h2]

/-- C6 witness: buyer with $100 buys 2 units for $10 from a provider with
$5; balances become $90 and $15, one matching entry each. -/
theorem C6_purchase_moves_amount_between_parties_witness :
    (10 : ℚ) ≤ 100 ∧ 2 ≤ capacity c6rows
    ∧ purchase "AB" 99 "d" c6prod 10 2 5 7 ⟨100, [], "b"⟩ ⟨5, [], "p"⟩ c6rows 9 50 =
        PurchaseOut.ok
          (applyWrites c6rows (allocRun 7 5 2 c6rows 50).writes)
          (allocRun 7 5 2 c6rows 50).nextId
          (9 - 2)
          ⟨100 - 10, [mkBuyerTx "AB" "d" c6prod 10 (allocRun 7 5 2 c6rows 50).creds], "b"⟩
          ⟨5 + 10, [mkProviderTx 99 "d" 10], "p"⟩ :=
  ⟨by norm_num, by decide,
    (C6_purchase_moves_amount_between_parties "AB" "d" 99 c6prod 10 2 5 7
      ⟨100, [], "b"⟩ ⟨5, [], "p"⟩ c6rows 9 50 (by norm_num) (by decide)).1⟩

/-- C10: the admin approve endpoint mutates nothing (and reports
not-found) when no ledger entry matches the given id in status
'Pendiente'; when exactly one entry matches, precisely that entry's
status becomes 'Completada' and the balance grows by exactly its
amount. -/
theorem C10_approve_mutates_iff_pending_match
    (tid : TxId) (ctid : Int) (dateStr username : String)
    (balance : ℚ) (history : List Tx) (hasReferrerId : Bool) (referrer : Option RefUser) :
    ((∀ x ∈ history, approveMatches tid x = false) →
      adminApprove tid ctid dateStr username balance history hasReferrerId referrer =
        { found := false, balance := balance, history := history,
          referrer := referrer, commission := none })
    ∧ (∀ pre t post, history = pre ++ t :: post → approveMatches tid t = true →
        (∀ x ∈ pre, approveMatches tid x = false) →
        (∀ x ∈ post, approveMatches tid x = false) →
        (adminApprove tid ctid dateStr username balance history hasReferrerId referrer).found
            = true
        ∧ (adminApprove tid ctid dateStr username balance history hasReferrerId
              referrer).balance = balance + t.amount
        ∧ (adminApprove tid ctid dateStr username balance history hasReferrerId
              referrer).history = pre ++ { t with status := "Completada" } :: post) := by
  constructor
  · intro h
    have hany : history.any (approveMatches tid) = false := by
      rw [List.any_eq_false]
      intro x hx
      simp [h x hx]
    simp [adminApprove, hany]
  · intro pre t post hh ht hpre hpost
    subst hh
    have hany : (pre ++ t :: post).any (approveMatches tid) = true := by
      rw [List.any_eq_true]
      exact ⟨t, by simp, ht⟩
    have hamt : approveAmount tid (pre ++ t :: post) = t.amount := by
      unfold approveAmount
      rw [filter_partition_single _ _ _ _ hpre hpost ht]
      rfl
    have hmap : (pre ++ t :: post).map (fun tx =>
        if approveMatches tid tx then { tx with status := "Completada" } else tx)
        = pre ++ { t with status := "Completada" } :: post := by
      rw [List.map_append, List.map_cons]
      rw [map_skip_all _ _ pre hpre, map_skip_all _ _ post hpost, if_pos ht]
    refine ⟨?_, ?_, ?_⟩ <;> simp [adminApprove, hany, hamt, hmap]

/-- C10 witness: a miss (string id against a numeric-id Pending entry in
a one-entry ledger) leaves everything unchanged; a hit completes exactly
that entry and credits its amount. -/
theorem C10_approve_mutates_iff_pending_match_witness :
    adminApprove (TxId.str "#NO") 1 "d" "u" 50 [c10tx] false none =
      { found := false, balance := 50, history := [c10tx],
        referrer := none, commission := none }
    ∧ ((adminApprove (TxId.num 7) 1 "d" "u" 50 [c10tx] false none).found = true
       ∧ (adminApprove (TxId.num 7) 1 "d" "u" 50 [c10tx] false none).balance
           = 50 + c10tx.amount
       ∧ (adminApprove (TxId.num 7) 1 "d" "u" 50 [c10tx] false none).history
           = [] ++ { c10tx with status := "Completada" } :: []) :=
  ⟨(C10_approve_mutates_iff_pending_match (TxId.str "#NO") 1 "d" "u" 50 [c10tx]
      false none).1 (by decide),
   (C10_approve_mutates_iff_pending_match (TxId.num 7) 1 "d" "u" 50 [c10tx]
      false none).2 [] c10tx [] rfl (by decide) (by simp) (by simp)⟩

/-- C4 counterexample: approving a referred user's *first* Pending
recharge of $0.04 with a commission-eligible referrer
(role 'distribuidor', rate 10%) credits no commission: the code rounds
`0.04 * 0.10 = 0.004` to 2 decimals, getting 0, and only credits when the
rounded commission is positive (db.js 2055) — the claim's "if and only
if" fails. -/
theorem C4_tiny_first_recharge_pays_no_commission :
    hasPreviousRecharges c4history = false
    ∧ commissionRate "distribuidor" = 10/100
    ∧ (adminApprove (.num 9) 77 "d" "u" 0 c4history true
        (some { role := "distribuidor" })).commission = none
    ∧ (adminApprove (.num 9) 77 "d" "u" 0 c4history true
        (some { role := "distribuidor" })).referrer = some { role := "distribuidor" } := by
  have hany : c4history.any (approveMatches (.num 9)) = true := by decide
  have hamt : approveAmount (.num 9) c4history = 1/25 := by
    simp [approveAmount, c4history, approveMatches, strictIdEq]
  have hprev : hasPreviousRecharges c4history = false := by decide
  have s1 : (("distribuidor" : String) == "Distribuidor Premium") = false := by decide
  have s2 : (("distribuidor" : String) == "distribuidor") = true := by decide
  have hrate : commissionRate "distribuidor" = 10/100 := by
    simp [commissionRate, s1, s2]
  have hc : ¬ (0 < round2 (1/25 * commissionRate "distribuidor")) := by
    rw [hrate]
    norm_num [round2]
  refine ⟨hprev, hrate, ?_, ?_⟩ <;>
    simp [adminApprove, hany, hamt, hprev, commissionStep] <;>
    norm_num [round2, hrate]

/-- C4 (amended): on approval of the single matching Pending transaction
of a user with an existing referrer, a commission is credited if and only
if the ledger held no previously Completed credit entry *and* the
2-decimal-rounded commission `round2 (A * rate)` is positive; it then
equals that rounded value and is applied to the referrer's balance with a
commission credit entry; the rate table is 0.15 for 'Distribuidor
Premium', 0.10 for 'distribuidor' or 'proveedor', 0 otherwise; a user
with a previous Completed credit entry never generates commission. -/
theorem C4_first_recharge_commission
    (tid : TxId) (ctid : Int) (dateStr username : String) (balance : ℚ)
    (pre post : List Tx) (t : Tx) (ref : RefUser)
    (ht : approveMatches tid t = true)
    (hpre : ∀ x ∈ pre, approveMatches tid x = false)
    (hpost : ∀ x ∈ post, approveMatches tid x = false) :
    (hasPreviousRecharges (pre ++ t :: post) = false →
        0 < round2 (t.amount * commissionRate ref.role) →
        (adminApprove tid ctid dateStr username balance (pre ++ t :: post) true
            (some ref)).commission = some (round2 (t.amount * commissionRate ref.role))
        ∧ (adminApprove tid ctid dateStr username balance (pre ++ t :: post) true
            (some ref)).referrer = some { ref with
              balance := ref.balance + round2 (t.amount * commissionRate ref.role)
              history := mkCommissionTx ctid dateStr username
                  (round2 (t.amount * commissionRate ref.role)) :: ref.history })
    ∧ (hasPreviousRecharges (pre ++ t :: post) = true →
        (adminApprove tid ctid dateStr username balance (pre ++ t :: post) true
            (some ref)).commission = none
        ∧ (adminApprove tid ctid dateStr username balance (pre ++ t :: post) true
            (some ref)).referrer = some ref)
    ∧ (round2 (t.amount * commissionRate ref.role) ≤ 0 →
        (adminApprove tid ctid dateStr username balance (pre ++ t :: post) true
            (some ref)).commission = none)
    ∧ commissionRate "Distribuidor Premium" = 15/100
    ∧ commissionRate "distribuidor" = 10/100
    ∧ commissionRate "proveedor" = 10/100
    ∧ (ref.role ≠ "Distribuidor Premium" → ref.role ≠ "distribuidor" →
        ref.role ≠ "proveedor" → commissionRate ref.role = 0) := by
  have hany : (pre ++ t :: post).any (approveMatches tid) = true := by
    rw [List.any_eq_true]
    exact ⟨t, by simp, ht⟩
  have hamt : approveAmount tid (pre ++ t :: post) = t.amount := by
    unfold approveAmount
    rw [filter_partition_single _ _ _ _ hpre hpost ht]
    rfl
  refine ⟨?_, ?_, ?_, by simp [commissionRate], by simp [commissionRate],
    by simp [commissionRate], ?_⟩
  · intro hprev hpos
    simp [adminApprove, hany, hamt, commissionStep, hprev, hpos]
  · intro hprev
    simp [adminApprove, hany, hamt, commissionStep, hprev]
  · intro hle
    have hnp : ¬ (0 < round2 (t.amount * commissionRate ref.role)) := not_lt.mpr hle
    by_cases hprev : hasPreviousRecharges (pre ++ t :: post)
    · simp [adminApprove, hany, hamt, commissionStep, hprev]
    · simp [adminApprove, hany, hamt, commissionStep, hprev, hnp]
  · intro h1 h2 h3
    have e1 : (ref.role == "Distribuidor Premium") = false := beq_eq_false_iff_ne.mpr h1
    have e2 : (ref.role == "distribuidor") = false := beq_eq_false_iff_ne.mpr h2
    have e3 : (ref.role == "proveedor") = false := beq_eq_false_iff_ne.mpr h3
    simp [commissionRate, e1, e2, e3]

/-- C4 witness: approving a first $10 recharge referred by a
'distribuidor' credits a $1.00 commission to the referrer. -/
theorem C4_first_recharge_commission_witness :
    (adminApprove (TxId.num 7) 1 "d" "u" 50 [c10tx] true
        (some { role := "distribuidor" })).commission
      = some (round2 (c10tx.amount * commissionRate "distribuidor"))
    ∧ round2 (c10tx.amount * commissionRate "distribuidor") = 1 :=
  ⟨((C4_first_recharge_commission (TxId.num 7) 1 "d" "u" 50 [] [] c10tx
      { role := "distribuidor" } (by decide) (by simp) (by simp)).1
      (by decide)
      (by
        have hr : commissionRate "distribuidor" = 10/100 := by simp [commissionRate]
        norm_num [round2, hr, c10tx])).1,
   by
     have hr : commissionRate "distribuidor" = 10/100 := by simp [commissionRate]
     norm_num [round2, hr, c10tx]⟩

/-- C5: the withdrawal lifecycle.  Creation fails with DuplicateRequest
while a Pending request exists; fails when the gross exceeds the balance
at 2-decimal comparison; otherwise records `net = G - G*rate`, debits the
gross from the balance, and writes no ledger entry.  Approve appends a
net-amount debit entry and leaves the balance alone (the gross hold is
not reversed); Reject restores the full gross with a matching credit
entry; Cancel while Pending deletes the request and restores the gross
with no ledger entry. -/
theorem C5_withdrawal_lifecycle
    (feeRate : ℚ) (newId userId wid : Nat) (G B : ℚ) (ws : List Withdrawal)
    (txId : Int) (dateStr : String) (history : List Tx) (w : Withdrawal) :
    (0 < G → ws.any (fun x => x.userId == userId && x.status == "Pending") = true →
      withdrawCreate feeRate newId userId G B ws = .error .duplicateRequest)
    ∧ (0 < G → ws.any (fun x => x.userId == userId && x.status == "Pending") = false →
        round2 B < round2 G →
        withdrawCreate feeRate newId userId G B ws = .error .insufficientBalance)
    ∧ (0 < G → ws.any (fun x => x.userId == userId && x.status == "Pending") = false →
        round2 G ≤ round2 B →
        withdrawCreate feeRate newId userId G B ws =
          .ok (B - G, ws ++ [{ id := newId, userId := userId, amountOriginal := G,
                               amountFinal := G - G * feeRate, status := "Pending" }]))
    ∧ (ws.find? (fun x => x.id == wid) = some w → w.status = "Pending" →
        withdrawManage "approve" wid txId dateStr ws B history =
          .ok (ws.map (fun x => if x.id == wid then { x with status := "Approved" } else x),
               B, mkWithdrawApprovedTx txId dateStr w.amountFinal :: history))
    ∧ (ws.find? (fun x => x.id == wid) = some w → w.status = "Pending" →
        withdrawManage "reject" wid txId dateStr ws B history =
          .ok (ws.map (fun x => if x.id == wid then { x with status := "Rejected" } else x),
               B + w.amountOriginal,
               mkWithdrawRejectedTx txId dateStr w.amountOriginal :: history))
    ∧ (ws.find? (fun x => x.id == wid && x.userId == userId && x.status == "Pending")
          = some w →
        withdrawCancel wid userId ws B =
          .ok (ws.filter (fun x => x.id != wid), B + w.amountOriginal)) := by
  refine ⟨?_, ?_, ?_, ?_, ?_, ?_⟩
  · intro hG hdup
    simp [withdrawCreate, not_le.mpr hG, hdup]
  · intro hG hdup hover
    simp [withdrawCreate, not_le.mpr hG, hdup, hover]
  · intro hG hdup hok
    simp [withdrawCreate, not_le.mpr hG, hdup, not_lt.mpr hok]
  · intro hfind hw
    have hs : (w.status != "Pending") = false := by simp [hw]
    simp [withdrawManage, hfind, hs]
  · intro hfind hw
    have hs : (w.status != "Pending") = false := by simp [hw]
    simp [withdrawManage, hfind, hs]
  · intro hfind
    simp [withdrawCancel, hfind]

/-- C5 witness: the spec's own numbers — a $100 request at a 10% fee from
a $150 balance holds the full $100 (balance $50) and records a $90 net;
approving appends the $90 debit without touching the balance; rejecting
restores the $100 with a credit entry; cancelling restores the $100; a
second request while one is Pending is refused. -/
theorem C5_withdrawal_lifecycle_witness :
    withdrawCreate (1/10) 1 7 100 150 [] =
      .ok (150 - 100, [{ id := 1, userId := 7, amountOriginal := 100,
                         amountFinal := 100 - 100 * (1/10), status := "Pending" }])
    ∧ withdrawCreate (1/10) 2 7 40 50
        [{ id := 1, userId := 7, amountOriginal := 100, amountFinal := 90,
           status := "Pending" }] = .error .duplicateRequest
    ∧ withdrawManage "approve" 1 11 "d"
        [{ id := 1, userId := 7, amountOriginal := 100, amountFinal := 90,
           status := "Pending" }] 50 [] =
        .ok ([{ id := 1, userId := 7, amountOriginal := 100, amountFinal := 90,
                status := "Approved" }], 50, [mkWithdrawApprovedTx 11 "d" 90])
    ∧ withdrawManage "reject" 1 11 "d"
        [{ id := 1, userId := 7, amountOriginal := 100, amountFinal := 90,
           status := "Pending" }] 50 [] =
        .ok ([{ id := 1, userId := 7, amountOriginal := 100, amountFinal := 90,
                status := "Rejected" }], 50 + 100, [mkWithdrawRejectedTx 11 "d" 100])
    ∧ withdrawCancel 1 7
        [{ id := 1, userId := 7, amountOriginal := 100, amountFinal := 90,
           status := "Pending" }] 50 = .ok ([], 50 + 100) := by
  refine ⟨?_, ?_, ?_, ?_, ?_⟩
  · exact (C5_withdrawal_lifecycle (1/10) 1 7 1 100 150 [] 11 "d" []
      { id := 1, userId := 7, amountOriginal := 100, amountFinal := 90,
        status := "Pending" }).2.2.1 (by norm_num) (by decide)
      (by norm_num [round2])
  · exact (C5_withdrawal_lifecycle (1/10) 2 7 1 40 50
      [{ id := 1, userId := 7, amountOriginal := 100, amountFinal := 90,
         status := "Pending" }] 11 "d" []
      { id := 1, userId := 7, amountOriginal := 100, amountFinal := 90,
        status := "Pending" }).1 (by norm_num) (by decide)
  · have := (C5_withdrawal_lifecycle (1/10) 9 7 1 100 50
      [{ id := 1, userId := 7, amountOriginal := 100, amountFinal := 90,
         status := "Pending" }] 11 "d" []
      { id := 1, userId := 7, amountOriginal := 100, amountFinal := 90,
        status := "Pending" }).2.2.2.1 (by decide) rfl
    simpa using this
  · have := (C5_withdrawal_lifecycle (1/10) 9 7 1 100 50
      [{ id := 1, userId := 7, amountOriginal := 100, amountFinal := 90,
         status := "Pending" }] 11 "d" []
      { id := 1, userId := 7, amountOriginal := 100, amountFinal := 90,
        status := "Pending" }).2.2.2.2.1 (by decide) rfl
    simpa using this
  · have := (C5_withdrawal_lifecycle (1/10) 9 7 1 100 50
      [{ id := 1, userId := 7, amountOriginal := 100, amountFinal := 90,
         status := "Pending" }] 11 "d" []
      { id := 1, userId := 7, amountOriginal := 100, amountFinal := 90,
        status := "Pending" }).2.2.2.2.2 (by decide)
    simpa using this

/-- C7 counterexample: a withdrawal request for $100.00 against an exact
balance of $99.995 passes the 2-decimal-rounded guard
(`round2 99.995 = round2 100 = 100`) and commits, leaving the balance at
−$0.005 — the committed balance is negative, so the claimed invariant
fails for the withdrawal path. -/
theorem C7_rounded_guard_commits_negative_balance :
    withdrawCreate (1/10) 1 1 100 (19999/200) [] =
      .ok (19999/200 - 100, [{ id := 1, userId := 1, amountOriginal := 100,
                               amountFinal := 100 - 100 * (1/10), status := "Pending" }])
    ∧ (19999/200 : ℚ) - 100 < 0 := by
  constructor
  · have hG : ¬ ((100 : ℚ) ≤ 0) := by norm_num
    have hcmp : ¬ (round2 (19999/200) < round2 100) := by norm_num [round2]
    simp [withdrawCreate, hG, hcmp]
  · norm_num

/-- C7 (amended): a committed purchase, premium upgrade, or
provider-side proportional refund leaves the debited user's balance
non-negative (their guards compare exactly); a committed withdrawal
request only guarantees the balance stays strictly above −$0.01, because
its guard compares the gross and the balance rounded to 2 decimals while
debiting the exact gross. -/
theorem C7_committed_debit_balance_bounds :
    (∀ (ordCode dateStr : String) (provTxId : Int) (prod : Product) (amount : ℚ)
        (qty buyerId : Nat) (pricePerUnit : ℚ) (buyer provider : UserSt)
        (rows rows2 : List StockRow) (counter cnt2 : Int) (nextRowId nid2 : Nat)
        (b2 p2 : UserSt),
      purchase ordCode provTxId dateStr prod amount qty pricePerUnit buyerId
          buyer provider rows counter nextRowId = PurchaseOut.ok rows2 nid2 cnt2 b2 p2 →
      0 ≤ b2.balance)
    ∧ (∀ (txId : Int) (dateStr expStr : String) (amount : ℚ) (role : String)
        (balance : ℚ) (history : List Tx) (b2 : ℚ) (r2 : String) (h2 : List Tx),
        premiumUpgrade txId dateStr expStr amount role balance history =
          some (b2, r2, h2) → 0 ≤ b2)
    ∧ (∀ (provTxId : Int) (dateStr : String) (amount : ℚ) (tid : TxId)
        (buyer provider b2 p2 : UserSt),
        proportionalRefund provTxId dateStr amount tid buyer provider = .ok (b2, p2) →
        0 ≤ p2.balance)
    ∧ (∀ (feeRate : ℚ) (newId userId : Nat) (amount balance : ℚ)
        (ws ws2 : List Withdrawal) (b2 : ℚ),
        withdrawCreate feeRate newId userId amount balance ws = .ok (b2, ws2) →
        -(1/100) < b2) := by
  refine ⟨?_, ?_, ?_, ?_⟩
  · intro ordCode dateStr provTxId prod amount qty buyerId pricePerUnit buyer provider
      rows rows2 counter cnt2 nextRowId nid2 b2 p2 h
    simp only [purchase] at h
    by_cases hb : buyer.balance < amount
    · rw [if_pos hb] at h
      exact absurd h (by simp)
    · rw [if_neg hb] at h
      by_cases hc : (allocRun buyerId pricePerUnit qty rows nextRowId).collected < qty
      · rw [if_pos hc] at h
        exact absurd h (by simp)
      · rw [if_neg hc] at h
        rw [PurchaseOut.ok.injEq] at h
        obtain ⟨-, -, -, hb2, -⟩ := h
        rw [← hb2]
        have := not_lt.mp hb
        simp only []
        linarith
  · intro txId dateStr expStr amount role balance history b2 r2 h2 h
    simp only [premiumUpgrade] at h
    by_cases hb : balance < amount
    · rw [if_pos hb] at h
      exact absurd h (by simp)
    · rw [if_neg hb] at h
      rw [Option.some.injEq, Prod.mk.injEq] at h
      obtain ⟨hb2, -⟩ := h
      rw [← hb2]
      linarith [not_lt.mp hb]
  · intro provTxId dateStr amount tid buyer provider b2 p2 h
    simp only [proportionalRefund] at h
    by_cases ha : amount ≤ 0
    · rw [if_pos ha] at h
      exact absurd h (by simp)
    · rw [if_neg ha] at h
      rcases hf : buyer.history.findIdx? (refundFindMatches tid) with - | i <;>
        simp only [hf] at h
      · exact absurd h (by simp)
      · rcases hg : buyer.history.get? i with - | targetTx <;> simp only [hg] at h
        · exact absurd h (by simp)
        · by_cases hd : (targetTx.status == "Devuelto") = true
          · rw [if_pos hd] at h
            exact absurd h (by simp)
          · rw [if_neg hd] at h
            by_cases hp : provider.balance < amount
            · rw [if_pos hp] at h
              exact absurd h (by simp)
            · rw [if_neg hp] at h
              rw [Except.ok.injEq, Prod.mk.injEq] at h
              obtain ⟨-, hp2⟩ := h
              rw [← hp2]
              simp only []
              linarith [not_lt.mp hp]
  · intro feeRate newId userId amount balance ws ws2 b2 h
    simp only [withdrawCreate] at h
    by_cases ha : amount ≤ 0
    · rw [if_pos ha] at h
      exact absurd h (by simp)
    · rw [if_neg ha] at h
      by_cases hdup : ws.any (fun x => x.userId == userId && x.status == "Pending") = true
      · rw [if_pos hdup] at h
        exact absurd h (by simp)
      · rw [if_neg hdup] at h
        by_cases hcmp : round2 balance < round2 amount
        · rw [if_pos hcmp] at h
          exact absurd h (by simp)
        · rw [if_neg hcmp] at h
          rw [Except.ok.injEq, Prod.mk.injEq] at h
          obtain ⟨hb2, -⟩ := h
          rw [← hb2]
          have := round2_le_bound (not_lt.mp hcmp)
          linarith

/-- C7 witness: a committed purchase ($10 from $100), premium upgrade
($20 from $50) and proportional refund ($30 from $100) leave
non-negative balances; a committed withdrawal ($100 from $150) stays
above −$0.01. -/
theorem C7_committed_debit_balance_bounds_witness :
    (0 : ℚ) ≤ 100 - 10 ∧ (0 : ℚ) ≤ 50 - 20 ∧ (0 : ℚ) ≤ 100 - 30
    ∧ -(1/100 : ℚ) < 150 - 100 := by
  have h1 : purchase "AB" 99 "d" c6prod 10 1 5 7 ⟨100, [], "b"⟩ ⟨5, [], "p"⟩ c1rows 9 50 =
      PurchaseOut.ok (applyWrites c1rows (allocRun 7 5 1 c1rows 50).writes)
        (allocRun 7 5 1 c1rows 50).nextId (9 - 1)
        ⟨100 - 10, [mkBuyerTx "AB" "d" c6prod 10 (allocRun 7 5 1 c1rows 50).creds], "b"⟩
        ⟨5 + 10, [mkProviderTx 99 "d" 10], "p"⟩ := by
    have hb : ¬ ((100 : ℚ) < 10) := by norm_num
    have hc : ¬ ((allocRun 7 5 1 c1rows 50).collected < 1) := by decide
    simp only [purchase, if_neg hb, if_neg hc]
    norm_num
  have h2 : premiumUpgrade 1 "d" "e" 20 "x" 50 [] =
      some (50 - 20, "Distribuidor Premium",
        [{ id := .num 1, date := "d", amount := 20, txType := "debit",
           status := "Completada",
           details := { purchaseDate := some "d", duration := some "e" } }]) := by
    have hb : ¬ ((50 : ℚ) < 20) := by norm_num
    simp [premiumUpgrade, hb]
  have h3 : proportionalRefund 2 "d" 30 (.num 4) ⟨0, [c7rtx], "b"⟩ ⟨100, [], "p"⟩ =
      .ok (⟨0 + 30,
             [{ id := .num 3, date := "d", amount := 30, txType := "credit",
                status := "Completada" },
              { c7rtx with
                  status := "Devuelto"
                  details := { c7rtx.details with
                                refundDate := some "d", refundAmount := some 30 } }], "b"⟩,
           ⟨100 - 30,
             [{ id := .num 2, date := "d", amount := 30, txType := "debit",
                status := "Completada" }], "p"⟩) := by
    have ha : ¬ ((30 : ℚ) ≤ 0) := by norm_num
    have hp : ¬ ((100 : ℚ) < 30) := by norm_num
    simp [proportionalRefund, ha, hp, refundFindMatches, TxId.toStr, c7rtx]
  have h4 : withdrawCreate (1/10) 1 7 100 150 [] =
      .ok (150 - 100, [{ id := 1, userId := 7, amountOriginal := 100,
                         amountFinal := 100 - 100 * (1/10), status := "Pending" }]) := by
    have hG : ¬ ((100 : ℚ) ≤ 0) := by norm_num
    have hcmp : ¬ (round2 150 < round2 100) := by norm_num [round2]
    simp [withdrawCreate, hG, hcmp]
  exact ⟨C7_committed_debit_balance_bounds.1 _ _ _ _ _ _ _ _ _ _ _ _ _ _ _ _ _ _ h1,
         C7_committed_debit_balance_bounds.2.1 _ _ _ _ _ _ _ _ _ _ h2,
         C7_committed_debit_balance_bounds.2.2.1 _ _ _ _ _ _ _ _ h3,
         C7_committed_debit_balance_bounds.2.2.2 _ _ _ _ _ _ _ _ h4⟩

/-- C9 counterexample: a ledger holding a Pending transaction with
numeric id 123 and the same id supplied in string form: the two ids are
equal as strings, yet /admin/transaction/approve — which compares with JS
strict `===` (db.js 2007), not as strings — reports not-found and mutates
nothing, refuting the claim that every lookup site compares as
strings. -/
theorem C9_admin_approve_misses_string_form_id :
    TxId.toStr (TxId.num 123) = TxId.toStr (TxId.str "123")
    ∧ adminApprove (TxId.str "123") 77 "d" "u" 50 c9history false none =
        { found := false, balance := 50, history := c9history,
          referrer := none, commission := none } := by
  refine ⟨rfl, ?_⟩
  have hany : c9history.any (approveMatches (TxId.str "123")) = false := by decide
  simp [adminApprove, hany]

/-- C9 (amended): send-to-support, the proportional refund and the
renewal compare transaction ids as strings — a numeric-id entry is found
when the id is supplied in string form — but the admin approve/reject
lookup uses JS strict equality, for which a numeric id never matches its
string form. -/
theorem C9_id_matching_amended (n : Int) (tx : Tx)
    (hid : tx.id = TxId.num n)
    (htrim : jsTrim (toString n) = toString n)
    (hne : toString n ≠ "") :
    approveMatches (TxId.str (toString n)) tx = false
    ∧ refundFindMatches (TxId.str (toString n)) tx = (tx.txType == "debit")
    ∧ renovateMatches (TxId.str (toString n)) tx = (tx.txType == "debit")
    ∧ supportMatch (toString n) tx = true := by
  have hbeq : (toString n == "") = false := beq_eq_false_iff_ne.mpr hne
  refine ⟨?_, ?_, ?_, ?_⟩
  · simp [approveMatches, strictIdEq, hid]
  · simp [refundFindMatches, TxId.toStr, hid]
  · simp [renovateMatches, TxId.toStr, hid]
  · simp [supportMatch, TxId.toStr, hid, htrim, hbeq, hne]

/-- C9 witness: the amended statement at numeric id 123 against the
concrete Pending entry. -/
theorem C9_id_matching_amended_witness :
    approveMatches (TxId.str (toString (123 : Int))) c9tx = false
    ∧ refundFindMatches (TxId.str (toString (123 : Int))) c9tx = (c9tx.txType == "debit")
    ∧ renovateMatches (TxId.str (toString (123 : Int))) c9tx = (c9tx.txType == "debit")
    ∧ supportMatch (toString (123 : Int)) c9tx = true :=
  C9_id_matching_amended 123 c9tx rfl (by decide) (by decide)

end Melu
